import Mathlib

/-!
Verification development for the maya-quality-assurance repository.

The central object is `CleanAnimation.evaluateAnimCurve`
(`checks/animation.py`), a pure decision procedure on one animation
curve's key data.  The curve data queried from Maya (key times, key
values, in/out tangent angles, out tangent types) is embedded as
parallel lists; Maya's doubles are modelled as rationals, which is
exact for the order comparisons the algorithm performs.
-/

namespace QA

/-- Python builtin `abs` on a rational value. -/
def rabs (q : ℚ) : ℚ := if q < 0 then -q else q

theorem rabs_eq_abs (q : ℚ) : rabs q = |q| := by
  by_cases h : q < 0
  · simp [rabs, h, abs_of_neg h]
  · simp [rabs, h, abs_of_nonneg (le_of_not_lt h)]

/-- One animation curve's key data, the parallel sequences returned by
the keyTangent and keyframe queries in `evaluateAnimCurve`.
`inAngleRaw` and `outAngleRaw` are the raw tangent angles; the Python
code takes their absolute values when it builds `inAngles`/`outAngles`. -/
structure AnimCurve where
  frames : List ℚ
  values : List ℚ
  inAngleRaw : List ℚ
  outAngleRaw : List ℚ
  outTangentTypes : List String
deriving DecidableEq, Repr

/-- The list `inAngles = [abs(a) for a in cmds.keyTangent(..., inAngle=True)]`. -/
def inAngles (c : AnimCurve) : List ℚ :=
  c.inAngleRaw.map rabs

/-- The list `outAngles = [abs(a) for a in cmds.keyTangent(..., outAngle=True)]`. -/
def outAngles (c : AnimCurve) : List ℚ :=
  c.outAngleRaw.map rabs

/-- The `stepped` test of the loop body: out tangent types at
`i-1`, `i`, `i+1` are all "step". -/
def steppedAt (c : AnimCurve) (i : ℕ) : Bool :=
  c.outTangentTypes.getD (i-1) "" == "step"
    && c.outTangentTypes.getD i "" == "step"
    && c.outTangentTypes.getD (i+1) "" == "step"

/-- The flat-tangent test of the loop body: the four adjoining
absolute angles are all below the angle tolerance. -/
def flatAt (c : AnimCurve) (angle : ℚ) (i : ℕ) : Bool :=
  decide ((outAngles c).getD (i-1) 0 < angle)
    && decide ((inAngles c).getD i 0 < angle)
    && decide ((outAngles c).getD i 0 < angle)
    && decide ((inAngles c).getD (i+1) 0 < angle)

/-- The difference `previousDif = abs(values[i-1] - values[i])`. -/
def previousDif (c : AnimCurve) (i : ℕ) : ℚ :=
  rabs (c.values.getD (i-1) 0 - c.values.getD i 0)

/-- The difference `nextDif = abs(values[i+1] - values[i])`. -/
def nextDif (c : AnimCurve) (i : ℕ) : ℚ :=
  rabs (c.values.getD (i+1) 0 - c.values.getD i 0)

/-- The condition under which the loop body appends index `i` to
`indices`: the outer stepped-or-flat guard together with the inner
value-difference guard. -/
def candidateCond (c : AnimCurve) (angle size : ℚ) (i : ℕ) : Bool :=
  (steppedAt c i || flatAt c angle i)
    && ((steppedAt c i && decide (previousDif c i < size))
        || (!steppedAt c i
            && decide (previousDif c i < size)
            && decide (nextDif c i < size)))

/-- The `indices` list built by `for i in range(1, len(frames)-1)`. -/
def candidateIndices (c : AnimCurve) (angle size : ℚ) : List ℕ :=
  (List.range' 1 (c.frames.length - 1 - 1)).filter (candidateCond c angle size)

/-- The second whole-curve test of `evaluateAnimCurve`: removing the
candidates would leave exactly two keys, first and last values are
within the value tolerance, and the boundary tangents are flat. -/
def staticDeleteCond (c : AnimCurve) (angle size : ℚ) : Bool :=
  decide ((c.frames.length : ℤ) - (candidateIndices c angle size).length = 2)
    && decide (rabs (c.values.getD 0 0 - c.values.getD (c.values.length - 1) 0) < size)
    && decide ((outAngles c).getD 0 0 < angle)
    && decide ((inAngles c).getD ((inAngles c).length - 1) 0 < angle)

/-- The evaluator `CleanAnimation.evaluateAnimCurve`: returns the action string and
the removable indices.  Python's `("delete", None)` is `("delete", none)`,
`("indices", indices)` is `("indices", some indices)` and `("pass", [])`
is `("pass", some [])`. -/
def evaluateAnimCurve (c : AnimCurve) (angle size : ℚ) :
    String × Option (List ℕ) :=
  let indices := candidateIndices c angle size
  if c.frames.length ≤ 1 then
    ("delete", none)
  else if staticDeleteCond c angle size then
    ("delete", none)
  else if indices ≠ [] then
    ("indices", some indices)
  else
    ("pass", some [])

/-- Model of `cmds.cutKey(animCurve, clear=True, index=(i, i))`: delete the key
at positional index `i`; every per-key sequence loses that entry. -/
def removeKey (c : AnimCurve) (i : ℕ) : AnimCurve where
  frames := c.frames.eraseIdx i
  values := c.values.eraseIdx i
  inAngleRaw := c.inAngleRaw.eraseIdx i
  outAngleRaw := c.outAngleRaw.eraseIdx i
  outTangentTypes := c.outTangentTypes.eraseIdx i

/-- The `action == "indices"` branch of `CleanAnimation._fix`:
`for i in indices[::-1]: cmds.cutKey(animCurve, clear=True, index=(i, i))`. -/
def pruneIndicesDesc (c : AnimCurve) (indices : List ℕ) : AnimCurve :=
  indices.reverse.foldl removeKey c

/-- Modelled from the spec: the alternative remediation the
order-invariance property compares against — repeatedly recompute the
candidate list on the remaining keys and remove its first (lowest)
index, until no candidates remain.  The fuel argument bounds the
number of removals; each removal deletes one key, so the initial key
count is enough fuel. -/
def ascRecomputeAux (angle size : ℚ) : ℕ → AnimCurve → AnimCurve
  | 0, c => c
  | fuel + 1, c =>
    match candidateIndices c angle size with
    | [] => c
    | i :: _ => ascRecomputeAux angle size fuel (removeKey c i)

/-- Modelled from the spec: applying prune-indices remediation "to a
freshly-recomputed ascending list one at a time recomputed after each
removal". -/
def specAscendingRecompute (c : AnimCurve) (angle size : ℚ) : AnimCurve :=
  ascRecomputeAux angle size c.frames.length c

/-- Shift a set of positional indices across one consumed element. -/
def decShift (L : List ℕ) : List ℕ :=
  L.filterMap (fun j => if j = 0 then none else some (j - 1))

/-- The keys of `keys` whose positional index is not listed in `L`. -/
def idxFilter {α : Type} : List α → List ℕ → List α
  | [], _ => []
  | k :: ks, L =>
    if 0 ∈ L then idxFilter ks (decShift L) else k :: idxFilter ks (decShift L)

/-- An all-stepped staircase whose consecutive values creep by half the
value tolerance; frames 0..4. -/
def steppedCreepCurve : AnimCurve where
  frames := [0, 1, 2, 3, 4]
  values := [0, 1/2000, 1/1000, 3/2000, 5]
  inAngleRaw := [90, 90, 90, 90, 90]
  outAngleRaw := [90, 90, 90, 90, 90]
  outTangentTypes := ["step", "step", "step", "step", "step"]

/-!
Scene-node model for the discovery phases that list nodes.  A node
carries the attributes the modelled checks consult; `referenced` is the
external "is this node referenced" predicate of the reference utility,
and `driven` the external "is this curve driven by a set-driven key"
predicate of the missing animation utility.
-/

/-- A scene node with the attributes consulted by the modelled checks:
its uv sets for `UVSetMap1`, its output-connection state for
`NotConnectedAnimation`, its key times for `SubFrameAnimation`, the
per-key lock states of its `ktv` channel for `TemplateAnimation`, and
its full key data for `CleanAnimation`. -/
structure SceneNode where
  name : String
  nodeType : String
  referenced : Bool
  driven : Bool
  outputConnected : Bool
  uvSets : List String
  keyFrames : List ℚ
  lockedKtv : List Bool
  curve : AnimCurve
deriving DecidableEq, Repr

/-- A scene is the ordered node list `cmds.ls` enumerates. -/
abbrev Scene := List SceneNode

/-- Model of `cmds.ls(type=t)`: every node of the given type, referenced or not. -/
def lsType (s : Scene) (t : String) : List SceneNode :=
  s.filter (fun n => n.nodeType == t)

/-- Model of `reference.removeReferenced`: drop nodes of referenced origin. -/
def removeReferenced (nodes : List SceneNode) : List SceneNode :=
  nodes.filter (fun n => !n.referenced)

/-- Modelled from the spec: `animation.removeDrivenAnimCurves` from the
`qualityAssurance.utils` module, which is missing from the sources —
curves driven by a driving relationship (set-driven-key outputs) are
excluded; whether a curve is driven is the external predicate recorded
on the node. -/
def removeDrivenAnimCurves (nodes : List SceneNode) : List SceneNode :=
  nodes.filter (fun n => !n.driven)

/-- Model of `NotConnectedAnimation._find`: list animCurve nodes, drop referenced
ones, yield those whose output plug has no connection. -/
def notConnectedAnimationFind (s : Scene) : List SceneNode :=
  (removeReferenced (lsType s "animCurve")).filter (fun n => !n.outputConnected)

/-- Model of `ComponentAnimation._find`: for every mesh node, take the
animCurve nodes connected to its `pnts` attribute (the connection
listing is an external scene query), drop the referenced ones and yield
the rest. -/
def componentAnimationFind (s : Scene) (pntsConnections : String → List SceneNode) :
    List SceneNode :=
  (lsType s "mesh").flatMap (fun mesh => removeReferenced (pntsConnections mesh.name))

/-- Python builtin `round(f, 0)`: round half to even. -/
def pyRound (q : ℚ) : ℤ :=
  if q - (⌊q⌋ : ℚ) < 1/2 then ⌊q⌋
  else if (1/2 : ℚ) < q - (⌊q⌋ : ℚ) then ⌊q⌋ + 1
  else if ⌊q⌋ % 2 = 0 then ⌊q⌋ else ⌊q⌋ + 1

/-- Model of `SubFrameAnimation._find`: list animCurve nodes, drop
referenced and driven ones, yield those having a key whose time is not
equal to its rounding. -/
def subFrameAnimationFind (s : Scene) : List SceneNode :=
  (removeDrivenAnimCurves (removeReferenced (lsType s "animCurve"))).filter
    (fun n => n.keyFrames.any (fun f => decide (((pyRound f : ℤ) : ℚ) ≠ f)))

/-- Model of `TemplateAnimation._find`: list animCurve nodes, drop
referenced and driven ones, yield those with a locked `ktv` entry. -/
def templateAnimationFind (s : Scene) : List SceneNode :=
  (removeDrivenAnimCurves (removeReferenced (lsType s "animCurve"))).filter
    (fun n => n.lockedKtv.any (fun b => b))

/-- Model of `CleanAnimation._find`: list animCurve nodes, drop
referenced and driven ones, yield those whose evaluation at the default
tolerances returns the delete or the indices action. -/
def cleanAnimationFind (s : Scene) : List SceneNode :=
  (removeDrivenAnimCurves (removeReferenced (lsType s "animCurve"))).filter
    (fun n => (evaluateAnimCurve n.curve (1/1000) (1/1000)).1 == "delete"
      || (evaluateAnimCurve n.curve (1/1000) (1/1000)).1 == "indices")

/-- Model of `UVSetMap1._find`: list mesh nodes (without any referenced-node
filtering) and yield those whose uv set at index 0 is not "map1". -/
def uvSetMap1Find (s : Scene) : List SceneNode :=
  (lsType s "mesh").filter (fun n => n.uvSets.getD 0 "" != "map1")

/-- Python builtin `str.upper` on one character (the node names at hand
are ASCII). -/
def pyUpperChar (ch : Char) : Char :=
  if 'a' ≤ ch ∧ ch ≤ 'z' then Char.ofNat (ch.toNat - 32) else ch

/-- Python builtin `str.upper`. -/
def pyUpper (s : String) : String := ⟨s.data.map pyUpperChar⟩

/-- Python builtin `str.endswith`. -/
def pyEndsWith (s suffixStr : String) : Bool :=
  suffixStr.data.isSuffixOf s.data

/-- The SUFFIX_NAMING_TABLE of `TransformSuffix._find`, keyed by the
node type of the transform's first shape (`None` for shapeless
transforms); a type outside the table means the transform is skipped. -/
def suffixTable : Option String → Option (List String)
  | some "mesh" => some ["_GEO", "_GES", "_GEP", "_OSD"]
  | some "nurbsCurve" => some ["_CRV"]
  | some "nurbsSurface" => some ["_NRB"]
  | some "locator" => some ["_LOC"]
  | none => some ["_GRP"]
  | some _ => none

/-- A transform node as consulted by `TransformSuffix._find`: its name,
referenced origin, selection state (the check lists with
`sl=self._selectable`, and the check is selectable) and the node type of
its first non-intermediate child shape. -/
structure TransformNode where
  name : String
  referenced : Bool
  selected : Bool
  firstShapeType : Option String
deriving DecidableEq, Repr

/-- Model of `TransformSuffix._find`: over the selected transforms
(without any referenced-node filtering), look up the suffix list for the
first child shape's type and yield the transform once for every listed
suffix its upper-cased name does not end with. -/
def transformSuffixFind (s : List TransformNode) : List TransformNode :=
  (s.filter (fun t => t.selected)).flatMap (fun t =>
    match suffixTable t.firstShapeType with
    | none => []
    | some sufxs =>
      (sufxs.filter (fun suf => !(pyEndsWith (pyUpper t.name) (pyUpper suf)))).map
        (fun _ => t))

/-- A DAG node as consulted by `JointsHidden`: the attributes read by
`is_visible` and the node's parent, if any. -/
structure DagNode where
  name : String
  nodeType : String
  referenced : Bool
  isDagNode : Bool
  isShape : Bool
  visibility : Bool
  intermediateObject : Bool
  hasOverrideAttrs : Bool
  overrideEnabled : Bool
  overrideVisibility : Bool
  parent : Option String
deriving DecidableEq, Repr

/-- Model of `JointsHidden.is_visible`: existence and dagNode checks,
then the visibility, intermediate-object and display-layer-override
tests, then recursion into the parent (with `intermediateObject=False`).
The recursion follows the parent chain, which in a Maya DAG is acyclic,
so a fuel of the scene size never runs out. -/
def isVisibleAux (s : List DagNode) :
    ℕ → String → Bool → Bool → Bool → Bool → Bool
  | 0, _, _, _, _, _ => false
  | fuel + 1, node, displayLayer, intermediateObject, parentHidden, visibility =>
    match s.find? (fun n => n.name == node) with
    | none => false
    | some n =>
      if !n.isDagNode then false
      else if visibility && !n.visibility then false
      else if intermediateObject && n.isShape && n.intermediateObject then false
      else if displayLayer && n.hasOverrideAttrs && n.overrideEnabled
          && n.overrideVisibility then false
      else if parentHidden then
        match n.parent with
        | some p =>
          isVisibleAux s fuel p displayLayer false parentHidden visibility
        | none => true
      else true

/-- Model of `JointsHidden._find`: list the joints (without any
referenced-node filtering) and yield the visible ones. -/
def jointsHiddenFind (s : List DagNode) : List DagNode :=
  (s.filter (fun n => n.nodeType == "joint")).filter
    (fun j => isVisibleAux s s.length j.name true true true true)

/-!
`ValidateDisplacement` (`checks/renderLayers.py`).  The only scene state
it touches is the integer attribute
`defaultArnoldRenderOptions.ignoreDisplacement`.
-/

/-- The Arnold render-options state consulted by `ValidateDisplacement`. -/
structure ArnoldOptions where
  ignoreDisplacement : ℤ
deriving DecidableEq, Repr

/-- Model of `ValidateDisplacement._find`: yield one error string when the
ignore-displacement attribute equals 1. -/
def validateDisplacementFind (s : ArnoldOptions) : List String :=
  if s.ignoreDisplacement = 1 then ["Displacement set to Ignore !"] else []

/-- Model of `ValidateDisplacement._fix`:
`cmds.setAttr("defaultArnoldRenderOptions.ignoreDisplacement", 1)`. -/
def validateDisplacementFix (s : ArnoldOptions) : ArnoldOptions :=
  { s with ignoreDisplacement := 1 }

/-!
The `action == "delete"` branch of `CleanAnimation._fix`.  A downstream
plug of the curve's output carries the value it evaluates to while the
curve drives it (`animValue`), the value it reverts to once the curve is
gone (`staticValue`), and its lock state.
-/

/-- One downstream plug of the animation curve's output attribute. -/
structure ScenePlug where
  name : String
  animValue : ℚ
  staticValue : ℚ
  locked : Bool
deriving DecidableEq, Repr

/-- The slice of scene state the delete remediation touches. -/
structure CurveScene where
  curveAlive : Bool
  plugs : List ScenePlug
deriving DecidableEq, Repr

/-- Model of `cmds.getAttr(plug)`: the plug evaluates through the curve while it
is alive and reverts to its stored value afterwards. -/
def getPlugAttr (s : CurveScene) (p : ScenePlug) : ℚ :=
  if s.curveAlive then p.animValue else p.staticValue

/-- The effect of `cmds.setAttr(p, a)` guarded by the lock query on one
stored plug: the plug named `pa.1` receives the captured value `pa.2`
unless it is locked. -/
def writePlugStep (q : ScenePlug) (pa : String × ℚ) : ScenePlug :=
  if q.name == pa.1 && !q.locked then { q with staticValue := pa.2 } else q

/-- One iteration of the write-back loop of the delete branch:
`if cmds.getAttr(p, lock=True): continue; cmds.setAttr(p, a)` for one
captured `(plug, attribute)` pair. -/
def writeBackStep (s : CurveScene) (pa : String × ℚ) : CurveScene :=
  { s with plugs := s.plugs.map (fun q => writePlugStep q pa) }

/-- The `action == "delete"` branch of `CleanAnimation._fix`: capture
each downstream plug's current value, delete the curve, then write the
captured values back, skipping locked plugs. -/
def fixDelete (s : CurveScene) : CurveScene :=
  let plugNames := s.plugs.map (fun p => p.name)
  let attributes := s.plugs.map (fun p => getPlugAttr s p)
  let deleted : CurveScene := { s with curveAlive := false }
  (plugNames.zip attributes).foldl writeBackStep deleted

/-!
Runner model.  The `qualityAssurance.utils` module that implements the
runner is not part of the sources at hand, so the aggregation semantics
are taken from the specification.
-/

/-- A check presented to the runner: its name and the outcome its
discovery phase would produce — either an error list or a raised
exception message. -/
structure RCheck where
  name : String
  discoverOutcome : Except String (List String)
deriving Repr

/-- Per-check outcome of a discovery pass. -/
structure RunResult where
  checkName : String
  errors : List String
  failed : Bool
deriving DecidableEq, Repr

/-- Modelled from the spec: `runDiscovery(checks)` — the runner itself
lives in the `qualityAssurance.utils` module, which is missing from the
sources; per the spec it invokes each check's `discover()` in input
order, catches and logs a raised exception, and still records a result
for every other check. -/
def runDiscovery (checks : List RCheck) : List RunResult :=
  checks.map (fun c =>
    match c.discoverOutcome with
    | Except.ok errs => { checkName := c.name, errors := errs, failed := false }
    | Except.error _ => { checkName := c.name, errors := [], failed := true })

/-!
Collection registry (`collections/__init__.py`) and the
environment-variable collection override in
`QualityAssuranceWindow.__init__` (`ui/window.py`).
-/

/-- The COLLECTION ordered mapping. -/
def COLLECTION : List (String × List String) :=
  [ ("ANIM", ["Scene", "Animation", "Scene"]),
    ("MDL", ["Scene", "Modelling", "Geometry", "UV", "Shaders", "Render Stats"]),
    ("RIG", ["Scene", "Rigging", "Skinning", "Shaders", "Render Stats"]),
    ("SHD", ["Scene", "Shaders", "Textures", "UV", "Render Stats"]),
    ("LGT Arnold", ["Scene", "Arnold", "Textures"]) ]

/-- Model of `getCollectionsCategories()`: the collection names. -/
def getCollectionsCategories : List String :=
  COLLECTION.map (fun c => c.1)

/-- Model of `os.environ[key]`: direct indexing raises `KeyError` when the
variable is unset. -/
def environGet (env : List (String × String)) (key : String) :
    Except String String :=
  match env.lookup key with
  | some v => Except.ok v
  | none => Except.error "KeyError"

/-- The collection-override logic of `QualityAssuranceWindow.__init__`:
`if os.environ['AVALON_TASK'] and os.environ['AVALON_TASK'] in overview:
collection = os.environ['AVALON_TASK']`.  The direct indexing happens
before the truthiness and membership tests, so an unset variable
raises. -/
def windowCollection (env : List (String × String)) (collection : String) :
    Except String String :=
  match environGet env "AVALON_TASK" with
  | Except.error e => Except.error e
  | Except.ok task =>
    if task ≠ "" ∧ task ∈ getCollectionsCategories then
      Except.ok task
    else
      Except.ok collection

/-!
Theorems.
-/

theorem steppedAt_iff (c : AnimCurve) (i : ℕ) :
    steppedAt c i = true ↔
      (c.outTangentTypes.getD (i-1) "" = "step"
        ∧ c.outTangentTypes.getD i "" = "step"
        ∧ c.outTangentTypes.getD (i+1) "" = "step") := by
  simp [steppedAt, Bool.and_eq_true, and_assoc]

theorem flatAt_iff (c : AnimCurve) (angle : ℚ) (i : ℕ) :
    flatAt c angle i = true ↔
      ((outAngles c).getD (i-1) 0 < angle
        ∧ (inAngles c).getD i 0 < angle
        ∧ (outAngles c).getD i 0 < angle
        ∧ (inAngles c).getD (i+1) 0 < angle) := by
  simp [flatAt, Bool.and_eq_true, and_assoc]

theorem candidateCond_iff (c : AnimCurve) (angle size : ℚ) (i : ℕ) :
    candidateCond c angle size i = true ↔
      ((c.outTangentTypes.getD (i-1) "" = "step"
          ∧ c.outTangentTypes.getD i "" = "step"
          ∧ c.outTangentTypes.getD (i+1) "" = "step"
          ∧ previousDif c i < size)
        ∨ ((outAngles c).getD (i-1) 0 < angle
          ∧ (inAngles c).getD i 0 < angle
          ∧ (outAngles c).getD i 0 < angle
          ∧ (inAngles c).getD (i+1) 0 < angle
          ∧ previousDif c i < size
          ∧ nextDif c i < size)) := by
  by_cases hS : steppedAt c i = true
  · have hS3 := (steppedAt_iff c i).mp hS
    simp only [candidateCond, hS, Bool.true_and, Bool.true_or, Bool.not_true,
      Bool.false_and, Bool.or_false, decide_eq_true_eq]
    constructor
    · intro hpd
      exact Or.inl ⟨hS3.1, hS3.2.1, hS3.2.2, hpd⟩
    · rintro (⟨_, _, _, hpd⟩ | ⟨_, _, _, _, hpd, _⟩) <;> exact hpd
  · have hS3 : ¬(c.outTangentTypes.getD (i-1) "" = "step"
        ∧ c.outTangentTypes.getD i "" = "step"
        ∧ c.outTangentTypes.getD (i+1) "" = "step") :=
      fun h => hS ((steppedAt_iff c i).mpr h)
    have hSf : steppedAt c i = false := Bool.eq_false_iff.mpr hS
    simp only [candidateCond, hSf, Bool.false_and, Bool.false_or, Bool.not_false,
      Bool.true_and, Bool.and_eq_true, decide_eq_true_eq, flatAt_iff]
    constructor
    · rintro ⟨⟨h1, h2, h3, h4⟩, hpd, hnd⟩
      exact Or.inr ⟨h1, h2, h3, h4, hpd, hnd⟩
    · rintro (⟨h1, h2, h3, _⟩ | ⟨h1, h2, h3, h4, hpd, hnd⟩)
      · exact absurd ⟨h1, h2, h3⟩ hS3
      · exact ⟨⟨h1, h2, h3, h4⟩, hpd, hnd⟩

/-- C1: an interior zero-based index `i` (`1 ≤ i ≤ n-2`) enters the
candidate list of `evaluateAnimCurve` if and only if either (a) the
outgoing tangent types at `i-1`, `i`, `i+1` are all "step" and the
previous value difference is below the value tolerance, or (b) the four
adjoining absolute tangent angles are all below the angle tolerance and
both neighbouring value differences are below the value tolerance; no
other index is a candidate. -/
theorem candidateIndices_characterisation
    (c : AnimCurve) (angle size : ℚ) (i : ℕ) :
    i ∈ candidateIndices c angle size ↔
      (1 ≤ i ∧ i ≤ c.frames.length - 2 ∧
        ((c.outTangentTypes.getD (i-1) "" = "step"
            ∧ c.outTangentTypes.getD i "" = "step"
            ∧ c.outTangentTypes.getD (i+1) "" = "step"
            ∧ previousDif c i < size)
          ∨ ((outAngles c).getD (i-1) 0 < angle
            ∧ (inAngles c).getD i 0 < angle
            ∧ (outAngles c).getD i 0 < angle
            ∧ (inAngles c).getD (i+1) 0 < angle
            ∧ previousDif c i < size
            ∧ nextDif c i < size))) := by
  unfold candidateIndices
  rw [List.mem_filter, List.mem_range'_1, candidateCond_iff]
  constructor
  · rintro ⟨⟨h1, h2⟩, hc⟩
    exact ⟨h1, by omega, hc⟩
  · rintro ⟨h1, h2, hc⟩
    exact ⟨⟨h1, by omega⟩, hc⟩

/-- C3: a curve with at most one key is always classified delete,
whatever the values, angles, tangent types and tolerances are. -/
theorem evaluate_delete_of_le_one_key (c : AnimCurve) (angle size : ℚ)
    (h : c.frames.length ≤ 1) :
    evaluateAnimCurve c angle size = ("delete", none) := by
  simp [evaluateAnimCurve, h]

/-- The empty animation curve. -/
def emptyCurve : AnimCurve := ⟨[], [], [], [], []⟩

theorem evaluate_delete_of_le_one_key_witness :
    emptyCurve.frames.length ≤ 1
      ∧ evaluateAnimCurve emptyCurve (1/1000) (1/1000) = ("delete", none) :=
  ⟨by decide, evaluate_delete_of_le_one_key emptyCurve (1/1000) (1/1000) (by decide)⟩

/-- C2: when the curve has at least two keys, removing the candidates
would leave exactly two keys, the first and last values are within the
value tolerance, and the boundary tangents are flat, the curve is
classified delete even if the candidate list is non-empty. -/
theorem evaluate_static_delete (c : AnimCurve) (angle size : ℚ)
    (hv : c.values.length = c.frames.length)
    (hia : c.inAngleRaw.length = c.frames.length)
    (h2 : 2 ≤ c.frames.length)
    (hcount : (c.frames.length : ℤ) - ((candidateIndices c angle size).length : ℤ) = 2)
    (hval : rabs (c.values.getD 0 0 - c.values.getD (c.frames.length - 1) 0) < size)
    (hout : (outAngles c).getD 0 0 < angle)
    (hin : (inAngles c).getD (c.frames.length - 1) 0 < angle) :
    evaluateAnimCurve c angle size = ("delete", none) := by
  have hn1 : ¬ c.frames.length ≤ 1 := by omega
  have hsc : staticDeleteCond c angle size = true := by
    have hlen : (inAngles c).length = c.frames.length := by
      simp [inAngles, hia]
    simp only [staticDeleteCond, Bool.and_eq_true, decide_eq_true_eq]
    refine ⟨⟨⟨hcount, ?_⟩, hout⟩, ?_⟩
    · rw [hv]; exact hval
    · rw [hlen]; exact hin
  simp [evaluateAnimCurve, hn1, hsc]

/-- A four-key constant curve with flat tangents. -/
def flatConstCurve : AnimCurve :=
  ⟨[0, 1, 2, 3], [5, 5, 5, 5], [0, 0, 0, 0], [0, 0, 0, 0],
    ["auto", "auto", "auto", "auto"]⟩

theorem evaluate_static_delete_witness :
    candidateIndices flatConstCurve (1/1000) (1/1000) = [1, 2]
      ∧ evaluateAnimCurve flatConstCurve (1/1000) (1/1000) = ("delete", none) :=
  ⟨by with_unfolding_all rfl,
    evaluate_static_delete flatConstCurve (1/1000) (1/1000) rfl rfl
      (by decide) (by with_unfolding_all rfl)
      (by norm_num [flatConstCurve, rabs])
      (by norm_num [flatConstCurve, outAngles, rabs])
      (by norm_num [flatConstCurve, inAngles, rabs])⟩

/-- C4: a curve past both whole-curve delete rules is classified
prune-indices with exactly the (ascending) candidate index list when
that list is non-empty, and no-action otherwise. -/
theorem evaluate_prune_or_pass (c : AnimCurve) (angle size : ℚ)
    (h1 : ¬ c.frames.length ≤ 1)
    (h2 : staticDeleteCond c angle size = false) :
    (evaluateAnimCurve c angle size =
        if candidateIndices c angle size = [] then ("pass", some [])
        else ("indices", some (candidateIndices c angle size)))
      ∧ (candidateIndices c angle size).Sorted (· < ·) := by
  constructor
  · by_cases hi : candidateIndices c angle size = [] <;>
      simp [evaluateAnimCurve, h1, h2, hi]
  · exact (List.pairwise_lt_range' 1 _).filter _

/-- Scenario B of the spec: keys [0,1,2], values [0, 0.0005, 1], middle
key flat and value-close to key 0 but not to key 2. -/
def scenarioBCurve : AnimCurve :=
  ⟨[0, 1, 2], [0, 1/2000, 1], [0, 0, 0], [0, 0, 0], ["auto", "auto", "auto"]⟩

theorem evaluate_prune_or_pass_witness :
    candidateIndices scenarioBCurve (1/1000) (1/1000) = []
      ∧ evaluateAnimCurve scenarioBCurve (1/1000) (1/1000) = ("pass", some []) := by
  have he : candidateIndices scenarioBCurve (1/1000) (1/1000) = [] := by
    with_unfolding_all rfl
  have h := (evaluate_prune_or_pass scenarioBCurve (1/1000) (1/1000)
      (by decide) (by with_unfolding_all rfl)).1
  rw [he] at h
  exact ⟨he, by simpa using h⟩

/-- C8: the claim is right and the code is wrong — `ValidateDisplacement`
reports an error when ignoreDisplacement is 1, but its fix writes 1 back
to the attribute, so discovery after the fix still reports the same
error instead of an empty set. -/
theorem validateDisplacement_fix_ineffective :
    validateDisplacementFind ⟨1⟩ = ["Displacement set to Ignore !"]
      ∧ validateDisplacementFix ⟨1⟩ = ⟨1⟩
      ∧ validateDisplacementFind (validateDisplacementFix ⟨1⟩)
          = ["Displacement set to Ignore !"] :=
  ⟨by decide, by decide, by decide⟩

/-- C9: the runner (modelled from the spec, the utils module is not in
the sources) produces one result per check in input order; a raised
discovery exception is recorded as a failed result in place, and the
checks before and after it are processed unchanged. -/
theorem runDiscovery_order_and_isolation :
    (∀ checks : List RCheck,
        (runDiscovery checks).map (fun r => r.checkName)
          = checks.map (fun c => c.name))
      ∧ (∀ (pre post : List RCheck) (nm e : String),
          runDiscovery (pre ++ { name := nm, discoverOutcome := Except.error e } :: post)
            = runDiscovery pre
                ++ { checkName := nm, errors := [], failed := true }
                :: runDiscovery post) := by
  constructor
  · intro checks
    unfold runDiscovery
    rw [List.map_map]
    apply List.map_congr_left
    intro c _
    cases hco : c.discoverOutcome <;> simp [Function.comp, hco]
  · intro pre post nm e
    simp [runDiscovery]

/-- C10: constructing the window reads `os.environ['AVALON_TASK']` by
direct indexing before any membership test, so with the variable unset
construction raises KeyError; with it set, the caller-supplied
collection is replaced exactly when the value is a non-empty known
collection name. -/
theorem windowCollection_env_behaviour :
    (∀ (env : List (String × String)) (collection : String),
        env.lookup "AVALON_TASK" = none →
          windowCollection env collection = Except.error "KeyError")
      ∧ (∀ (env : List (String × String)) (collection v : String),
          env.lookup "AVALON_TASK" = some v →
            windowCollection env collection =
              Except.ok
                (if v ≠ "" ∧ v ∈ getCollectionsCategories then v else collection)) := by
  constructor
  · intro env c h
    simp [windowCollection, environGet, h]
  · intro env c v h
    simp only [windowCollection, environGet, h]
    by_cases hc : v ≠ "" ∧ v ∈ getCollectionsCategories <;> simp [hc]

theorem windowCollection_env_behaviour_witness :
    windowCollection [] "MDL" = Except.error "KeyError"
      ∧ windowCollection [("AVALON_TASK", "ANIM")] "MDL" = Except.ok "ANIM" := by
  refine ⟨windowCollection_env_behaviour.1 [] "MDL" rfl, ?_⟩
  have h := windowCollection_env_behaviour.2 [("AVALON_TASK", "ANIM")] "MDL" "ANIM"
    (by with_unfolding_all rfl)
  rw [h, if_pos (by decide)]

theorem idxFilter_nil {α : Type} : ∀ keys : List α, idxFilter keys [] = keys := by
  intro keys
  induction keys with
  | nil => rfl
  | cons k ks ih => simpa [idxFilter, decShift] using ih

theorem mem_decShift {L : List ℕ} {j : ℕ} :
    j ∈ decShift L ↔ ∃ j0 ∈ L, j0 ≠ 0 ∧ j0 - 1 = j := by
  constructor
  · intro hj
    obtain ⟨j0, hj0, hf⟩ := List.mem_filterMap.mp hj
    by_cases h0 : j0 = 0
    · simp [h0] at hf
    · simp only [h0, if_neg, ite_false] at hf
      exact ⟨j0, hj0, h0, Option.some_injective _ hf⟩
  · rintro ⟨j0, hj0, h0, hje⟩
    exact List.mem_filterMap.mpr ⟨j0, hj0, by simp [h0, hje]⟩

theorem eraseIdx_idxFilter {α : Type} :
    ∀ (keys : List α) (i : ℕ) (L : List ℕ), (∀ j ∈ L, i < j) →
      (idxFilter keys L).eraseIdx i = idxFilter keys (i :: L) := by
  intro keys
  induction keys with
  | nil => intro i L _; rfl
  | cons k ks ih =>
    intro i L h
    have h0 : 0 ∉ L := fun hm => by have := h 0 hm; omega
    match i with
    | 0 =>
      have hd : decShift (0 :: L) = decShift L := by simp [decShift]
      simp [idxFilter, h0, hd]
    | i0 + 1 =>
      have hm : 0 ∉ (i0 + 1) :: L := by simp [h0]
      have hd : decShift ((i0 + 1) :: L) = i0 :: decShift L := by simp [decShift]
      have hnext : ∀ j ∈ decShift L, i0 < j := by
        intro j hj
        obtain ⟨j0, hj0, hne, hje⟩ := mem_decShift.mp hj
        have := h j0 hj0
        omega
      simp only [idxFilter, h0, if_neg, ite_false, hm, hd]
      rw [List.eraseIdx_cons_succ, ih i0 (decShift L) hnext]

theorem foldr_eraseIdx_sorted {α : Type} :
    ∀ (L : List ℕ) (keys : List α), L.Pairwise (· < ·) →
      L.foldr (fun i ks => ks.eraseIdx i) keys = idxFilter keys L := by
  intro L
  induction L with
  | nil => intro keys _; exact (idxFilter_nil keys).symm
  | cons i L ih =>
    intro keys h
    rw [List.foldr_cons, ih keys (List.Pairwise.sublist (List.sublist_cons_self i L) h),
      eraseIdx_idxFilter keys i L (fun j hj => List.rel_of_pairwise_cons h hj)]

theorem foldl_removeKey_eq :
    ∀ (L : List ℕ) (c : AnimCurve),
      L.foldl removeKey c =
        { frames := L.foldl (fun ks i => ks.eraseIdx i) c.frames,
          values := L.foldl (fun ks i => ks.eraseIdx i) c.values,
          inAngleRaw := L.foldl (fun ks i => ks.eraseIdx i) c.inAngleRaw,
          outAngleRaw := L.foldl (fun ks i => ks.eraseIdx i) c.outAngleRaw,
          outTangentTypes := L.foldl (fun ks i => ks.eraseIdx i) c.outTangentTypes } := by
  intro L
  induction L with
  | nil => intro c; rfl
  | cons i L ih => intro c; simp [List.foldl_cons, ih, removeKey]

/-- C5 amended: the prune-indices remediation removes the keys whose
positional index is in the candidate list, from highest index to lowest,
so the surviving keys are exactly those at positions outside the
candidate list of the original curve.  (The spec's further claim that
this agrees with removing one freshly-recomputed ascending candidate at
a time is false, see the counterexample.) -/
theorem pruneIndicesDesc_eq_idxFilter (c : AnimCurve) (angle size : ℚ) :
    pruneIndicesDesc c (candidateIndices c angle size) =
      { frames := idxFilter c.frames (candidateIndices c angle size),
        values := idxFilter c.values (candidateIndices c angle size),
        inAngleRaw := idxFilter c.inAngleRaw (candidateIndices c angle size),
        outAngleRaw := idxFilter c.outAngleRaw (candidateIndices c angle size),
        outTangentTypes :=
          idxFilter c.outTangentTypes (candidateIndices c angle size) } := by
  have hs : (candidateIndices c angle size).Pairwise (· < ·) :=
    (List.pairwise_lt_range' 1 _).filter _
  unfold pruneIndicesDesc
  rw [foldl_removeKey_eq]
  simp only [List.foldl_reverse]
  rw [foldr_eraseIdx_sorted _ c.frames hs, foldr_eraseIdx_sorted _ c.values hs,
    foldr_eraseIdx_sorted _ c.inAngleRaw hs, foldr_eraseIdx_sorted _ c.outAngleRaw hs,
    foldr_eraseIdx_sorted _ c.outTangentTypes hs]

/-- C5 counterexample: on an all-stepped curve whose values creep by
half the value tolerance per key, descending removal of the candidate
list [1,2,3] keeps keys at frames [0,4], while removing one
freshly-recomputed ascending candidate at a time keeps keys at frames
[0,2,4]: the two final key sets differ. -/
theorem pruneIndicesDesc_recompute_counterexample :
    evaluateAnimCurve steppedCreepCurve (1/1000) (1/1000)
        = ("indices", some [1, 2, 3])
      ∧ (pruneIndicesDesc steppedCreepCurve [1, 2, 3]).frames = [0, 4]
      ∧ (specAscendingRecompute steppedCreepCurve (1/1000) (1/1000)).frames
          = [0, 2, 4]
      ∧ (pruneIndicesDesc steppedCreepCurve [1, 2, 3]).frames
          ≠ (specAscendingRecompute steppedCreepCurve (1/1000) (1/1000)).frames := by
  have hdesc : (pruneIndicesDesc steppedCreepCurve [1, 2, 3]).frames = [0, 4] := by
    with_unfolding_all rfl
  have hasc : (specAscendingRecompute steppedCreepCurve (1/1000) (1/1000)).frames
      = [0, 2, 4] := by with_unfolding_all rfl
  refine ⟨by with_unfolding_all rfl, hdesc, hasc, fun heq => ?_⟩
  rw [hdesc, hasc] at heq
  have := congrArg List.length heq
  simp at this

theorem foldl_writeBackStep_curveAlive :
    ∀ (pairs : List (String × ℚ)) (st : CurveScene),
      (pairs.foldl writeBackStep st).curveAlive = st.curveAlive := by
  intro pairs
  induction pairs with
  | nil => intro st; rfl
  | cons pa pairs ih => intro st; rw [List.foldl_cons, ih]; rfl

theorem foldl_writeBackStep_plugs :
    ∀ (pairs : List (String × ℚ)) (st : CurveScene),
      (pairs.foldl writeBackStep st).plugs
        = st.plugs.map (fun q => pairs.foldl writePlugStep q) := by
  intro pairs
  induction pairs with
  | nil => intro st; simp
  | cons pa pairs ih =>
    intro st
    rw [List.foldl_cons, ih]
    simp [writeBackStep, List.map_map, Function.comp]

theorem foldl_writePlugStep_no_match (q : ScenePlug) :
    ∀ pairs : List (String × ℚ), (∀ pa ∈ pairs, ¬ pa.1 = q.name) →
      pairs.foldl writePlugStep q = q := by
  intro pairs
  induction pairs with
  | nil => intro _; rfl
  | cons pa pairs ih =>
    intro h
    have hne : (q.name == pa.1) = false :=
      beq_eq_false_iff_ne.mpr (fun he => h pa (List.mem_cons_self pa pairs) he.symm)
    have hstep : writePlugStep q pa = q := by simp [writePlugStep, hne]
    rw [List.foldl_cons, hstep, ih (fun pa2 hpa2 => h pa2 (List.mem_cons_of_mem _ hpa2))]

/-- C6: the delete remediation captures each downstream plug's evaluated
value while the curve is alive, deletes the curve, and writes the
captured values back; afterwards every unlocked plug stores the value
the curve evaluated to before deletion and locked plugs are untouched. -/
theorem fixDelete_result (s : CurveScene)
    (halive : s.curveAlive = true)
    (hnd : (s.plugs.map (fun p => p.name)).Nodup) :
    (fixDelete s).curveAlive = false
      ∧ (fixDelete s).plugs
          = s.plugs.map (fun p =>
              if p.locked then p else { p with staticValue := p.animValue }) := by
  have hattr : s.plugs.map (fun p => getPlugAttr s p)
      = s.plugs.map (fun p => p.animValue) :=
    List.map_congr_left (fun p _ => by simp [getPlugAttr, halive])
  have hpairs : (s.plugs.map (fun p => p.name)).zip
        (s.plugs.map (fun p => getPlugAttr s p))
      = s.plugs.map (fun p => (p.name, p.animValue)) := by
    rw [hattr, List.zip_map']
  constructor
  · simp only [fixDelete]
    rw [foldl_writeBackStep_curveAlive]
  · simp only [fixDelete, hpairs]
    rw [foldl_writeBackStep_plugs]
    show s.plugs.map _ = _
    apply List.map_congr_left
    intro q hq
    obtain ⟨l1, l2, hsplit⟩ := List.append_of_mem hq
    have hnames : ((l1.map (fun p => p.name)) ++ q.name :: l2.map (fun p => p.name)).Nodup := by
      have := hnd
      rw [hsplit] at this
      simpa using this
    obtain ⟨hn1, hn2, hdisj⟩ := List.nodup_append.mp hnames
    have hq1 : ∀ p1 ∈ l1, ¬ p1.name = q.name := by
      intro p1 hp1 he
      exact hdisj (List.mem_map_of_mem _ hp1)
        (by rw [he]; exact List.mem_cons_self _ _)
    have hq2 : ∀ p2 ∈ l2, ¬ p2.name = q.name := by
      intro p2 hp2 he
      exact (List.nodup_cons.mp hn2).1 (he ▸ List.mem_map_of_mem _ hp2)
    have hfold1 : (l1.map (fun p => (p.name, p.animValue))).foldl writePlugStep q = q :=
      foldl_writePlugStep_no_match q _ (by
        intro pa hpa
        obtain ⟨p1, hp1, hpe⟩ := List.mem_map.mp hpa
        rw [← hpe]
        exact hq1 p1 hp1)
    rw [hsplit, List.map_append, List.map_cons, List.foldl_append, hfold1,
      List.foldl_cons]
    by_cases hL : q.locked
    · have hstep : writePlugStep q (q.name, q.animValue) = q := by
        simp [writePlugStep, hL]
      rw [hstep, if_pos hL]
      exact foldl_writePlugStep_no_match q _ (by
        intro pa hpa
        obtain ⟨p2, hp2, hpe⟩ := List.mem_map.mp hpa
        rw [← hpe]
        exact hq2 p2 hp2)
    · have hstep : writePlugStep q (q.name, q.animValue)
          = { q with staticValue := q.animValue } := by
        simp [writePlugStep, hL]
      rw [hstep, if_neg hL]
      exact foldl_writePlugStep_no_match _ _ (by
        intro pa hpa
        obtain ⟨p2, hp2, hpe⟩ := List.mem_map.mp hpa
        rw [← hpe]
        exact hq2 p2 hp2)

/-- A curve scene with one unlocked and one locked downstream plug. -/
def demoDeleteScene : CurveScene :=
  ⟨true, [⟨"pCube1.tx", 3, 0, false⟩, ⟨"pCube1.ty", 7, 0, true⟩]⟩

theorem fixDelete_result_witness :
    (fixDelete demoDeleteScene).curveAlive = false
      ∧ (fixDelete demoDeleteScene).plugs
          = [⟨"pCube1.tx", 3, 3, false⟩, ⟨"pCube1.ty", 7, 0, true⟩] := by
  have h := fixDelete_result demoDeleteScene rfl (by decide)
  refine ⟨h.1, ?_⟩
  rw [h.2]
  with_unfolding_all rfl

/-- A referenced mesh whose first uv set is not map1. -/
def refMesh : SceneNode where
  name := "refMesh"
  nodeType := "mesh"
  referenced := true
  driven := false
  outputConnected := false
  uvSets := ["uvSet"]
  keyFrames := []
  lockedKtv := []
  curve := emptyCurve

/-- A scene holding only the referenced mesh. -/
def refMeshScene : Scene := [refMesh]

/-- C7 counterexample: `UVSetMap1._find` lists meshes without any
referenced-node filtering, so a referenced mesh with a renamed first uv
set is yielded as an error. -/
theorem uvSetMap1_yields_referenced :
    uvSetMap1Find refMeshScene = [refMesh] ∧ refMesh.referenced = true :=
  ⟨by with_unfolding_all rfl, rfl⟩

/-- A referenced, visible joint with no parent. -/
def refJoint : DagNode where
  name := "refJoint"
  nodeType := "joint"
  referenced := true
  isDagNode := true
  isShape := false
  visibility := true
  intermediateObject := false
  hasOverrideAttrs := false
  overrideEnabled := false
  overrideVisibility := false
  parent := none

/-- A scene holding only the referenced joint. -/
def refJointScene : List DagNode := [refJoint]

/-- A selected, referenced mesh transform whose name carries no mesh
suffix. -/
def refTransform : TransformNode where
  name := "refCube_GRP"
  referenced := true
  selected := true
  firstShapeType := some "mesh"

/-- A selection holding only the referenced transform. -/
def refTransformScene : List TransformNode := [refTransform]

/-- C7 amended: the checks that route their node listing through
`reference.removeReferenced` — `NotConnectedAnimation`,
`ComponentAnimation`, `SubFrameAnimation`, `TemplateAnimation` and
`CleanAnimation` — never yield a referenced node, whatever the scene;
but `JointsHidden`, `UVSetMap1` and `TransformSuffix` list scene nodes
without the referenced filter, and each of them yields a referenced node
on a suitable scene. -/
theorem referenced_filter_amended :
    (∀ s : Scene, ∀ n ∈ notConnectedAnimationFind s, n.referenced = false)
      ∧ (∀ (s : Scene) (conns : String → List SceneNode),
          ∀ n ∈ componentAnimationFind s conns, n.referenced = false)
      ∧ (∀ s : Scene, ∀ n ∈ subFrameAnimationFind s, n.referenced = false)
      ∧ (∀ s : Scene, ∀ n ∈ templateAnimationFind s, n.referenced = false)
      ∧ (∀ s : Scene, ∀ n ∈ cleanAnimationFind s, n.referenced = false)
      ∧ (jointsHiddenFind refJointScene).any (fun n => n.referenced) = true
      ∧ (uvSetMap1Find refMeshScene).any (fun n => n.referenced) = true
      ∧ (transformSuffixFind refTransformScene).any (fun n => n.referenced) = true := by
  refine ⟨?_, ?_, ?_, ?_, ?_, ?_, ?_, ?_⟩
  · intro s n hn
    have h1 := (List.mem_filter.mp hn).1
    have h2 := (List.mem_filter.mp h1).2
    simpa using h2
  · intro s conns n hn
    obtain ⟨mesh, _, hmem⟩ := List.mem_flatMap.mp hn
    have h2 := (List.mem_filter.mp hmem).2
    simpa using h2
  · intro s n hn
    have h1 := (List.mem_filter.mp (List.mem_filter.mp hn).1).1
    have h2 := (List.mem_filter.mp h1).2
    simpa using h2
  · intro s n hn
    have h1 := (List.mem_filter.mp (List.mem_filter.mp hn).1).1
    have h2 := (List.mem_filter.mp h1).2
    simpa using h2
  · intro s n hn
    have h1 := (List.mem_filter.mp (List.mem_filter.mp hn).1).1
    have h2 := (List.mem_filter.mp h1).2
    simpa using h2
  · with_unfolding_all rfl
  · with_unfolding_all rfl
  · with_unfolding_all rfl

/-- An unreferenced, undriven animation curve with no output connection
and no keys. -/
def strayCurveNode : SceneNode where
  name := "animCurveTL1"
  nodeType := "animCurve"
  referenced := false
  driven := false
  outputConnected := false
  uvSets := []
  keyFrames := []
  lockedKtv := []
  curve := emptyCurve

theorem referenced_filter_amended_witness :
    strayCurveNode ∈ notConnectedAnimationFind [strayCurveNode, refMesh]
      ∧ strayCurveNode.referenced = false :=
  ⟨by with_unfolding_all decide,
    referenced_filter_amended.1 [strayCurveNode, refMesh] strayCurveNode
      (by with_unfolding_all decide)⟩

end QA
